import Mathlib

/-!
Shallow embedding of the data-preparation pipeline of `dashboard.py`
(Smart Micro-Manufacturing Operator Dashboard).

Two layers are modelled, both directly from the source:

* the loaded, typed table (`SensorReading`, `SensorTable`) together with the
  statistics computed over it: the Overview KPIs of lines 51-54
  (`summary_metrics`), the hourly resample of line 46 (`df_hourly`) and the
  alert dictionary of lines 95-99 (`alert_conditions`);
* the raw dataframe (`Frame`) on which `load_data` (lines 17-31) operates:
  `rename` with pandas semantics (absent source columns silently ignored),
  `pd.to_datetime` raising at the first unparseable value, and
  `sort_values('DateTime')`.

pandas `NaN` results (mean or quantile of an empty series, empty resample
buckets, `0 / 0` for the optimal-conditions percentage of an empty table)
are modelled as `Option.none`.
-/

namespace Dashboard

/-- One row of the loaded dataframe with the renamed internal column names
of `load_data`; `ts` is the parsed `DateTime` index, in seconds. -/
structure SensorReading where
  ts : Nat
  vibration_level : ℚ
  machine_speed : ℚ
  production_quality_score : ℚ
  optimal_conditions : Bool
  energy_consumption : ℚ
  temperature : ℚ
  deriving DecidableEq, Repr

/-- The loaded table: an ordered sequence of readings. -/
abbrev SensorTable := List SensorReading

/-- pandas `Series.mean`: arithmetic mean, `NaN` (here `none`) on an empty
series. -/
def mean (l : List ℚ) : Option ℚ :=
  if l.isEmpty then none else some (l.sum / l.length)

/-- pandas `Series.quantile(q)` with the default linear interpolation: the
value at position `q * (n - 1)` of the sorted series, interpolating between
the two neighbouring order statistics; `NaN` (`none`) on an empty series. -/
def quantile (q : ℚ) (l : List ℚ) : Option ℚ :=
  if l.isEmpty then none
  else
    let s := l.insertionSort (· ≤ ·)
    let n := l.length
    let pos : ℚ := q * (n - 1)
    let i : Nat := (Int.floor pos).toNat
    let frac : ℚ := pos - i
    some (s.getD i 0 + frac * (s.getD (min (i + 1) (n - 1)) 0 - s.getD i 0))

/-- The four Overview KPIs of lines 51-54. -/
structure SummaryMetrics where
  avg_quality : Option ℚ
  avg_speed : Option ℚ
  avg_energy : Option ℚ
  optimal_pct : Option ℚ
  deriving DecidableEq, Repr

/-- Lines 51-54: three column means plus
`df['Optimal_Conditions'].sum() / len(df) * 100`; the boolean sum counts
`True` entries, and on the empty table numpy turns `0 / 0` into `nan`
(`none`). -/
def summary_metrics (t : SensorTable) : SummaryMetrics where
  avg_quality := mean (t.map (·.production_quality_score))
  avg_speed := mean (t.map (·.machine_speed))
  avg_energy := mean (t.map (·.energy_consumption))
  optimal_pct :=
    if t.length = 0 then none
    else some ((t.countP (·.optimal_conditions) : ℚ) / (t.length : ℚ) * 100)

/-- One bucket row of `df.resample('1h').mean()`: the mean of every numeric
column over the bucket, `NaN` (`none`) where the bucket is empty.
`Optimal_Conditions` is averaged as 0/1 like pandas does for booleans. -/
structure HourlyAgg where
  vibration_level : Option ℚ
  machine_speed : Option ℚ
  production_quality_score : Option ℚ
  optimal_conditions : Option ℚ
  energy_consumption : Option ℚ
  temperature : Option ℚ
  deriving DecidableEq, Repr

/-- Smallest timestamp of the table (`df.index.min()`); junk 0 on empty. -/
def minTs : SensorTable → Nat
  | [] => 0
  | r :: rs => rs.foldl (fun a x => Nat.min a x.ts) r.ts

/-- Largest timestamp of the table (`df.index.max()`); junk 0 on empty. -/
def maxTs : SensorTable → Nat
  | [] => 0
  | r :: rs => rs.foldl (fun a x => Nat.max a x.ts) r.ts

/-- Rows whose timestamp falls in the half-open hour window
`[start, start + 3600)`. -/
def bucketRows (t : SensorTable) (start : Nat) : SensorTable :=
  t.filter (fun r => decide (start ≤ r.ts) && decide (r.ts < start + 3600))

/-- Column means over one resample bucket. -/
def bucketAgg (t : SensorTable) (start : Nat) : HourlyAgg :=
  let rows := bucketRows t start
  { vibration_level := mean (rows.map (·.vibration_level))
    machine_speed := mean (rows.map (·.machine_speed))
    production_quality_score := mean (rows.map (·.production_quality_score))
    optimal_conditions := mean (rows.map (fun r => if r.optimal_conditions then 1 else 0))
    energy_consumption := mean (rows.map (·.energy_consumption))
    temperature := mean (rows.map (·.temperature)) }

/-- Line 46, `df_dashboard.resample('1h').mean()`: one labelled bucket per
wall-clock hour from the hour containing the smallest timestamp to the hour
containing the largest one; the label is the bucket's start. -/
def df_hourly (t : SensorTable) : List (Nat × HourlyAgg) :=
  match t with
  | [] => []
  | r :: rs =>
    let lo := minTs (r :: rs) / 3600
    let hi := maxTs (r :: rs) / 3600
    (List.range' lo (hi - lo + 1)).map (fun k => (k * 3600, bucketAgg (r :: rs) (k * 3600)))

/-- The three alert counts of lines 95-99. -/
structure AlertCounts where
  highVibration : Nat
  lowQuality : Nat
  highEnergy : Nat
  deriving DecidableEq, Repr

/-- `(series > thr).sum()` where `thr` may be `NaN` (`none`): comparisons
against `NaN` are all `False` in pandas, so the count is then 0. -/
def countAbove (l : List ℚ) : Option ℚ → Nat
  | none => 0
  | some c => l.countP (fun v => decide (c < v))

/-- `(series < thr).sum()` with the same `NaN` convention. -/
def countBelow (l : List ℚ) : Option ℚ → Nat
  | none => 0
  | some c => l.countP (fun v => decide (v < c))

/-- The `alert_conditions` dictionary of lines 95-99: strict comparisons of
each monitored column against a percentile of the same column of the same
table. -/
def alert_conditions (t : SensorTable) : AlertCounts where
  highVibration :=
    countAbove (t.map (·.vibration_level))
      (quantile (95 / 100) (t.map (·.vibration_level)))
  lowQuality :=
    countBelow (t.map (·.production_quality_score))
      (quantile (5 / 100) (t.map (·.production_quality_score)))
  highEnergy :=
    countAbove (t.map (·.energy_consumption))
      (quantile (95 / 100) (t.map (·.energy_consumption)))

/-- Lines 100-104: the message rendered for one alert; counts above zero
take the `st.error` branch, zero counts the `st.success` "No issues"
branch. -/
def alert_message (name : String) (count : Nat) : String :=
  if count > 0 then "alert: " ++ name ++ ": " ++ toString count ++ " occurrences"
  else "ok: " ++ name ++ ": No issues"

/-! ### Spec-side restatement of the alert computation (for the refinement
claim): the percentile is described in the spec as "linear interpolation
between order statistics", stated here over `Multiset.sort`, and the counts
as the number of rows passing a strict comparison over the full table. -/

/-- Modelled from the spec's words ("linear interpolation between order
statistics"): the `q`-quantile of the multiset of values. Compared below
against the code's `quantile`. -/
def spec_percentile (q : ℚ) (l : List ℚ) : Option ℚ :=
  match l with
  | [] => none
  | _ :: _ =>
    let s := Multiset.sort (· ≤ ·) (↑l : Multiset ℚ)
    let pos : ℚ := q * (s.length - 1)
    let i : Nat := (Int.floor pos).toNat
    some (s.getD i 0 + (pos - i) * (s.getD (min (i + 1) (s.length - 1)) 0 - s.getD i 0))

/-- `True` when the value strictly exceeds a defined threshold. -/
def exceeds (o : Option ℚ) (v : ℚ) : Bool :=
  match o with
  | some c => decide (c < v)
  | none => false

/-- `True` when the value is strictly below a defined threshold. -/
def isBelow (o : Option ℚ) (v : ℚ) : Bool :=
  match o with
  | some c => decide (v < c)
  | none => false

/-- Modelled from the spec's words: the three alert counts, each the number
of rows of the full table passing a strict comparison against the
`spec_percentile` threshold recomputed from the current table. -/
def spec_alert_summary (t : SensorTable) : Nat × Nat × Nat :=
  let vib := t.map (·.vibration_level)
  let qual := t.map (·.production_quality_score)
  let en := t.map (·.energy_consumption)
  ((vib.filter (exceeds (spec_percentile (95 / 100) vib))).length,
   (qual.filter (isBelow (spec_percentile (5 / 100) qual))).length,
   (en.filter (exceeds (spec_percentile (95 / 100) en))).length)

/-! ### The raw dataframe and `load_data` (lines 17-31) -/

/-- One dataframe cell: a raw string, a number, a boolean flag, or a parsed
date-time (seconds). -/
inductive Cell where
  | str (s : String)
  | num (q : ℚ)
  | flag (b : Bool)
  | dt (t : Nat)
  deriving DecidableEq, Repr

/-- The raw dataframe produced by `pd.read_csv`: a header naming the
columns, and rows aligned positionally with the header. -/
structure Frame where
  cols : List String
  rows : List (List Cell)
  deriving DecidableEq, Repr

/-- The new name of one column under a rename map: the mapped value when
the name is a key, the name itself otherwise. -/
def applyRename (m : List (String × String)) (c : String) : String :=
  ((m.find? (fun p => p.1 == c)).map Prod.snd).getD c

/-- `DataFrame.rename(columns=m)`: every column whose name is a key of `m`
is renamed to the mapped value; names absent from the frame are silently
ignored (pandas semantics - no error for missing keys). -/
def renameCols (m : List (String × String)) (cols : List String) : List String :=
  cols.map (applyRename m)

/-- `rename` lifted to the frame; rows are untouched. -/
def Frame.rename (f : Frame) (m : List (String × String)) : Frame :=
  { f with cols := renameCols m f.cols }

/-- Index of the first column with the given name, if any. -/
def idxOf? (c : String) : List String → Option Nat
  | [] => none
  | x :: xs => if x = c then some 0 else (idxOf? c xs).map (· + 1)

/-- `df[c]` column lookup position; `none` models pandas `KeyError`. -/
def Frame.colIdx (f : Frame) (c : String) : Option Nat := idxOf? c f.cols

/-- Value of a decimal digit character. -/
def digitVal (c : Char) : Option Nat :=
  if c.isDigit then some (c.toNat - 48) else none

/-- Decimal number denoted by a list of digit characters; fails on any
non-digit. -/
def parseDigits (cs : List Char) : Option Nat :=
  cs.foldl (fun acc c => acc.bind (fun a => (digitVal c).map (fun d => a * 10 + d))) (some 0)

/-- A digit field of exactly `len` characters. -/
def parseFixed (len : Nat) (cs : List Char) : Option Nat :=
  if cs.length = len then parseDigits cs else none

/-- Split a character list at every occurrence of `sep` (the semantics of
`String.splitOn` for a one-character separator). -/
def splitOnChar (sep : Char) : List Char → List (List Char)
  | [] => [[]]
  | c :: rest =>
    let r := splitOnChar sep rest
    if c = sep then [] :: r
    else
      match r with
      | [] => [[c]]
      | g :: gs => (c :: g) :: gs

/-- `pd.to_datetime` on one string, for timestamps written
`YYYY-MM-DD HH:MM:SS`; anything else fails to parse. The value counts
seconds on a simplified calendar (every month 31 days): only the induced
ordering and the hour boundaries matter to the dashboard. -/
def parseTimestamp (s : String) : Option Nat :=
  match splitOnChar ' ' s.toList with
  | [d, tm] =>
    match splitOnChar '-' d, splitOnChar ':' tm with
    | [y, mo, da], [h, mi, se] => do
      let yv ← parseFixed 4 y
      let mov ← parseFixed 2 mo
      let dav ← parseFixed 2 da
      let hv ← parseFixed 2 h
      let miv ← parseFixed 2 mi
      let sev ← parseFixed 2 se
      some (((((yv * 12 + mov) * 31 + dav) * 24 + hv) * 60 + miv) * 60 + sev)
    | _, _ => none
  | _ => none

/-- `pd.to_datetime` on one cell: strings go through `parseTimestamp`,
already-parsed date-times pass through, anything else fails. -/
def parseCell : Cell → Option Nat
  | .str s => parseTimestamp s
  | .dt t => some t
  | _ => none

/-- The cell of a row in the column at `idx`. -/
def cellAt (idx : Nat) (row : List Cell) : Cell := row.getD idx (.str "")

/-- Whether the row's timestamp cell fails to parse. -/
def badTimestamp (idx : Nat) (row : List Cell) : Bool :=
  (parseCell (cellAt idx row)).isNone

/-- Position of the first row satisfying `p` (pandas raises at the first
failing value). -/
def firstIdx (p : List Cell → Bool) : List (List Cell) → Option Nat
  | [] => none
  | r :: rs => if p r then some 0 else (firstIdx p rs).map (· + 1)

/-- Sort key of a row: its parsed `DateTime` value. -/
def dtKey (idx : Nat) (row : List Cell) : Nat :=
  match cellAt idx row with
  | .dt t => t
  | _ => 0

/-- `df.sort_values('DateTime')`: rows reordered ascending by the
`DateTime` column. -/
def sortByDateTime (f : Frame) : Frame :=
  match f.colIdx "DateTime" with
  | none => f
  | some idx =>
    { f with rows := f.rows.insertionSort (fun a b => dtKey idx a ≤ dtKey idx b) }

/-- The errors `load_data` can raise: pandas `KeyError` on a missing
column lookup, and the `to_datetime` parse failure with the position of the
offending row. -/
inductive LoadError where
  | keyError (col : String)
  | parseError (row : Nat)
  deriving DecidableEq, Repr

/-- Line 19's rename map. -/
def renameMap1 : List (String × String) := [("Timestamp", "DateTime")]

/-- Lines 22-30's rename map. -/
def renameMap2 : List (String × String) :=
  [("Timestamp", "DateTime"),
   ("Vibration Level (mm/s)", "Vibration_Level"),
   ("Machine Speed (RPM)", "Machine_Speed"),
   ("Production Quality Score", "Production_Quality_Score"),
   ("Optimal Conditions", "Optimal_Conditions"),
   ("Energy Consumption (kWh)", "Energy_Consumption"),
   ("Temperature (°C)", "Temperature")]

/-- Lines 17-31: rename `Timestamp` to `DateTime` (silently a no-op when
absent), look the `DateTime` column up (pandas `KeyError` when missing),
parse every timestamp (raising at the first unparseable row), sort by the
parsed timestamps and apply the second rename. Note that no column other
than the timestamp one is ever checked for presence. -/
def load_data (input : Frame) : Except LoadError Frame :=
  let f1 := input.rename renameMap1
  match f1.colIdx "DateTime" with
  | none => .error (.keyError "DateTime")
  | some idx =>
    match firstIdx (badTimestamp idx) f1.rows with
    | some j => .error (.parseError j)
    | none =>
      let rows2 := f1.rows.map
        (fun row => row.set idx (.dt ((parseCell (cellAt idx row)).getD 0)))
      let f3 := sortByDateTime { cols := f1.cols, rows := rows2 }
      .ok (f3.rename renameMap2)

/-! ## Helper lemmas -/

theorem insertionSort_eq_multiset_sort (l : List ℚ) :
    Multiset.sort (· ≤ ·) (↑l : Multiset ℚ) = l.insertionSort (· ≤ ·) :=
  List.eq_of_perm_of_sorted
    ((Multiset.coe_eq_coe.mp (Multiset.sort_eq _ _)).trans
      (List.perm_insertionSort _ _).symm)
    (Multiset.sort_sorted _ _)
    (List.sorted_insertionSort _ _)

theorem spec_percentile_eq_quantile (q : ℚ) (l : List ℚ) :
    spec_percentile q l = quantile q l := by
  cases l with
  | nil => rfl
  | cons a l' =>
    simp only [spec_percentile, quantile, insertionSort_eq_multiset_sort,
      List.length_insertionSort, List.isEmpty_cons, Bool.false_eq_true, if_false]

theorem countAbove_eq_filter (l : List ℚ) (o : Option ℚ) :
    countAbove l o = (l.filter (exceeds o)).length := by
  cases o with
  | none =>
    have hnil : l.filter (exceeds none) = [] := by
      simp [List.filter_eq_nil_iff, exceeds]
    simp [countAbove, hnil]
  | some c =>
    show l.countP _ = _
    rw [List.countP_eq_length_filter]
    rfl

theorem countBelow_eq_filter (l : List ℚ) (o : Option ℚ) :
    countBelow l o = (l.filter (isBelow o)).length := by
  cases o with
  | none =>
    have hnil : l.filter (isBelow none) = [] := by
      simp [List.filter_eq_nil_iff, isBelow]
    simp [countBelow, hnil]
  | some c =>
    show l.countP _ = _
    rw [List.countP_eq_length_filter]
    rfl

theorem quantile_of_singleton (q v : ℚ) : quantile q [v] = some v := by
  norm_num [quantile, List.insertionSort, List.orderedInsert]

/-! ## Claims -/

/-- C1: on the empty table the code silently produces `NaN` (modelled as
`none`) for all four summary metrics - `avg_quality`, `avg_speed`,
`avg_energy` and `optimal_pct` - instead of failing with an
`EmptyInputError`; `dashboard.py` has no such error path at all. Evaluates
the code at the failing input of the claim. -/
theorem summary_metrics_empty_is_nan :
    summary_metrics [] = ⟨none, none, none, none⟩ := rfl

/-- C5: for every non-empty table `optimal_pct` is
`(count of rows with optimal_conditions true) / (row count) * 100`; it
lies in `[0, 100]`, is `100` iff every row has the flag set and `0` iff
no row does. -/
theorem optimal_pct_correct (t : SensorTable) (h : t ≠ []) :
    ∃ p : ℚ, (summary_metrics t).optimal_pct = some p ∧
      p = (t.countP (·.optimal_conditions) : ℚ) / (t.length : ℚ) * 100 ∧
      0 ≤ p ∧ p ≤ 100 ∧
      (p = 100 ↔ ∀ r ∈ t, r.optimal_conditions = true) ∧
      (p = 0 ↔ ∀ r ∈ t, r.optimal_conditions = false) := by
  have h0 : t.length ≠ 0 := fun hh => h (List.length_eq_zero.mp hh)
  have hn : (0 : ℚ) < t.length := by
    have := Nat.pos_of_ne_zero h0
    exact_mod_cast this
  have hc : ((t.countP (·.optimal_conditions) : ℚ)) ≤ (t.length : ℚ) := by
    exact_mod_cast List.countP_le_length _
  have hc0 : (0 : ℚ) ≤ (t.countP (·.optimal_conditions) : ℚ) := by positivity
  refine ⟨_, by simp [summary_metrics, h0], rfl, by positivity, ?_, ?_, ?_⟩
  · have h1 : ((t.countP (·.optimal_conditions) : ℚ)) / (t.length : ℚ) ≤ 1 :=
      (div_le_one hn).mpr hc
    nlinarith
  · constructor
    · intro hp
      have hcn : ((t.countP (·.optimal_conditions) : ℚ)) = (t.length : ℚ) := by
        field_simp at hp
        linarith
      have : t.countP (·.optimal_conditions) = t.length := by exact_mod_cast hcn
      exact List.countP_eq_length.mp this
    · intro hall
      have : t.countP (·.optimal_conditions) = t.length := List.countP_eq_length.mpr hall
      rw [this]
      field_simp
  · constructor
    · intro hp
      have hcz : t.countP (·.optimal_conditions) = 0 := by
        have : ((t.countP (·.optimal_conditions) : ℚ)) = 0 := by
          rcases mul_eq_zero.mp hp with h1 | h1
          · rcases div_eq_zero_iff.mp h1 with h2 | h2
            · exact h2
            · exact absurd h2 hn.ne'
          · norm_num at h1
        exact_mod_cast this
      intro r hr
      have := List.countP_eq_zero.mp hcz r hr
      simpa using this
    · intro hall
      have : t.countP (·.optimal_conditions) = 0 :=
        List.countP_eq_zero.mpr (fun r hr => by simp [hall r hr])
      rw [this]
      norm_num

/-- Concrete input for the C5 witness. -/
def exC5 : SensorTable := [⟨0, 1, 1, 1, true, 1, 1⟩]

theorem optimal_pct_correct_witness :
    exC5 ≠ [] ∧
      ∃ p : ℚ, (summary_metrics exC5).optimal_pct = some p ∧
        p = (exC5.countP (·.optimal_conditions) : ℚ) / (exC5.length : ℚ) * 100 ∧
        0 ≤ p ∧ p ≤ 100 ∧
        (p = 100 ↔ ∀ r ∈ exC5, r.optimal_conditions = true) ∧
        (p = 0 ↔ ∀ r ∈ exC5, r.optimal_conditions = false) :=
  ⟨by decide, optimal_pct_correct exC5 (by decide)⟩

/-- C2: the three alert counts are exactly the spec's counts - rows of the
full table strictly above (resp. below) the 95th (resp. 5th) percentile of
the same column of the same table, the percentile being linear
interpolation between order statistics - and the thresholds depend on the
table rather than being fixed constants. -/
theorem alert_conditions_match_spec :
    (∀ t : SensorTable,
        ((alert_conditions t).highVibration, (alert_conditions t).lowQuality,
          (alert_conditions t).highEnergy) = spec_alert_summary t) ∧
      ∃ t₁ t₂ : SensorTable,
        quantile (95 / 100) (t₁.map (·.vibration_level)) ≠
          quantile (95 / 100) (t₂.map (·.vibration_level)) := by
  constructor
  · intro t
    show (countAbove _ _, countBelow _ _, countAbove _ _) = _
    rw [countAbove_eq_filter, countBelow_eq_filter, countAbove_eq_filter]
    simp only [spec_alert_summary, spec_percentile_eq_quantile]
  · refine ⟨[⟨0, 0, 0, 0, true, 0, 0⟩], [⟨0, 1, 0, 0, true, 0, 0⟩], ?_⟩
    simp [quantile_of_singleton]

theorem quantile_of_const (q c : ℚ) (_hq0 : 0 ≤ q) (hq1 : q ≤ 1) (l : List ℚ)
    (hne : l ≠ []) (hc : ∀ v ∈ l, v = c) : quantile q l = some c := by
  have hempty : l.isEmpty = false := List.isEmpty_eq_false.mpr hne
  have hn : 0 < l.length := List.length_pos.mpr hne
  set s := l.insertionSort (· ≤ ·) with hs
  have hslen : s.length = l.length := List.length_insertionSort _ _
  have hsmem : ∀ v ∈ s, v = c := fun v hv =>
    hc v ((List.perm_insertionSort _ _).subset hv)
  have hone : (1 : ℚ) ≤ (l.length : ℚ) := by exact_mod_cast hn
  have hle : q * ((l.length : ℚ) - 1) ≤ (((l.length : ℤ) - 1 : ℤ) : ℚ) := by
    push_cast
    nlinarith
  have hfloor : ⌊q * ((l.length : ℚ) - 1)⌋ ≤ (l.length : ℤ) - 1 := by
    calc ⌊q * ((l.length : ℚ) - 1)⌋ ≤ ⌊(((l.length : ℤ) - 1 : ℤ) : ℚ)⌋ :=
          Int.floor_le_floor hle
      _ = (l.length : ℤ) - 1 := Int.floor_intCast _
  have hi : (⌊q * ((l.length : ℚ) - 1)⌋).toNat < l.length := by omega
  have hj : min ((⌊q * ((l.length : ℚ) - 1)⌋).toNat + 1) (l.length - 1) < l.length := by
    omega
  have hgi : s.getD (⌊q * ((l.length : ℚ) - 1)⌋).toNat 0 = c := by
    rw [List.getD_eq_getElem?_getD, List.getElem?_eq_getElem (hslen ▸ hi)]
    exact hsmem _ (List.getElem_mem _)
  have hgj : s.getD (min ((⌊q * ((l.length : ℚ) - 1)⌋).toNat + 1) (l.length - 1)) 0 = c := by
    rw [List.getD_eq_getElem?_getD, List.getElem?_eq_getElem (hslen ▸ hj)]
    exact hsmem _ (List.getElem_mem _)
  simp only [quantile, hempty, Bool.false_eq_true, if_false, ← hs, hgi, hgj]
  norm_num

theorem countAbove_const_zero (l : List ℚ) (c : ℚ) (hne : l ≠ [])
    (hc : ∀ v ∈ l, v = c) (q : ℚ) (hq0 : 0 ≤ q) (hq1 : q ≤ 1) :
    countAbove l (quantile q l) = 0 := by
  rw [quantile_of_const q c hq0 hq1 l hne hc]
  refine List.countP_eq_zero.mpr fun v hv => ?_
  rw [hc v hv]
  simp

theorem countBelow_const_zero (l : List ℚ) (c : ℚ) (hne : l ≠ [])
    (hc : ∀ v ∈ l, v = c) (q : ℚ) (hq0 : 0 ≤ q) (hq1 : q ≤ 1) :
    countBelow l (quantile q l) = 0 := by
  rw [quantile_of_const q c hq0 hq1 l hne hc]
  refine List.countP_eq_zero.mpr fun v hv => ?_
  rw [hc v hv]
  simp

/-- C10: in every non-empty table where a monitored column is constant,
the corresponding alert count is 0 - the strict comparison against the
percentile of a constant column, which equals that constant, never fires -
and the dashboard renders the no-issues branch for that alert. -/
theorem alert_counts_constant_zero (t : SensorTable) (hne : t ≠ []) :
    (∀ c : ℚ, (∀ r ∈ t, r.vibration_level = c) →
        (alert_conditions t).highVibration = 0 ∧
          alert_message "High Vibration" (alert_conditions t).highVibration =
            "ok: High Vibration: No issues") ∧
      (∀ c : ℚ, (∀ r ∈ t, r.production_quality_score = c) →
        (alert_conditions t).lowQuality = 0 ∧
          alert_message "Low Quality" (alert_conditions t).lowQuality =
            "ok: Low Quality: No issues") ∧
      (∀ c : ℚ, (∀ r ∈ t, r.energy_consumption = c) →
        (alert_conditions t).highEnergy = 0 ∧
          alert_message "High Energy" (alert_conditions t).highEnergy =
            "ok: High Energy: No issues") := by
  have hmapne : ∀ f : SensorReading → ℚ, t.map f ≠ [] := fun f => by
    simpa using hne
  refine ⟨fun c hc => ?_, fun c hc => ?_, fun c hc => ?_⟩
  all_goals
    refine (fun h0 => ⟨h0, by rw [h0]; rfl⟩) ?_
  · exact countAbove_const_zero _ c (hmapne _)
      (fun v hv => by obtain ⟨r, hr, rfl⟩ := List.mem_map.mp hv; exact hc r hr)
      _ (by norm_num) (by norm_num)
  · exact countBelow_const_zero _ c (hmapne _)
      (fun v hv => by obtain ⟨r, hr, rfl⟩ := List.mem_map.mp hv; exact hc r hr)
      _ (by norm_num) (by norm_num)
  · exact countAbove_const_zero _ c (hmapne _)
      (fun v hv => by obtain ⟨r, hr, rfl⟩ := List.mem_map.mp hv; exact hc r hr)
      _ (by norm_num) (by norm_num)

/-- Concrete input for the C10 witness: both monitored columns constant. -/
def exC10 : SensorTable := [⟨0, 5, 6, 7, true, 8, 9⟩, ⟨3600, 5, 6, 7, false, 8, 9⟩]

theorem alert_counts_constant_zero_witness :
    exC10 ≠ [] ∧ (∀ r ∈ exC10, r.vibration_level = 5) ∧
      (alert_conditions exC10).highVibration = 0 ∧
      alert_message "High Vibration" (alert_conditions exC10).highVibration =
        "ok: High Vibration: No issues" :=
  ⟨by decide, by decide,
    ((alert_counts_constant_zero exC10 (by decide)).1 5 (by decide)).1,
    ((alert_counts_constant_zero exC10 (by decide)).1 5 (by decide)).2⟩

theorem foldl_min_le (l : List SensorReading) (a : Nat) :
    l.foldl (fun b x => Nat.min b x.ts) a ≤ a := by
  induction l generalizing a with
  | nil => simp
  | cons x xs ih => exact le_trans (ih _) (Nat.min_le_left _ _)

theorem le_foldl_max (l : List SensorReading) (a : Nat) :
    a ≤ l.foldl (fun b x => Nat.max b x.ts) a := by
  induction l generalizing a with
  | nil => simp
  | cons x xs ih => exact le_trans (Nat.le_max_left _ _) (ih _)

theorem minTs_le_maxTs (t : SensorTable) (h : t ≠ []) : minTs t ≤ maxTs t := by
  cases t with
  | nil => exact absurd rfl h
  | cons r rs => exact le_trans (foldl_min_le rs r.ts) (le_foldl_max rs r.ts)

/-- Concrete input for C4: readings at 00:30 and 01:10 of the same day. -/
def exC4 : SensorTable := [⟨1800, 1, 1, 1, true, 1, 1⟩, ⟨4200, 1, 1, 1, true, 1, 1⟩]

/-- C4 counterexample: for readings at 00:30 and 01:10, `resample('1h')`
produces the two hour-aligned buckets 00:00 and 01:00, while the claim's
formula `ceil((max - min) / 1h) = ceil(2400s / 3600s) = 1` predicts one
bucket. -/
theorem df_hourly_count_ne_ceil :
    (df_hourly exC4).length ≠ (maxTs exC4 - minTs exC4 + 3599) / 3600 := by decide

/-- C4 amended: for every non-empty table the bucket count is
`⌊max_ts/1h⌋ - ⌊min_ts/1h⌋ + 1` - one bucket per wall-clock hour window
touched by the range, including the partial final one - not
`ceil((max_ts - min_ts)/1h)`; every bucket label is an hour-aligned start
between the hour of the minimum and the hour of the maximum timestamp. -/
theorem df_hourly_bucket_count (t : SensorTable) (h : t ≠ []) :
    (df_hourly t).length = maxTs t / 3600 - minTs t / 3600 + 1 ∧
      ∀ p ∈ df_hourly t, p.1 % 3600 = 0 ∧ minTs t / 3600 * 3600 ≤ p.1 ∧
        p.1 ≤ maxTs t / 3600 * 3600 := by
  cases t with
  | nil => exact absurd rfl h
  | cons r rs =>
    have hlohi : minTs (r :: rs) / 3600 ≤ maxTs (r :: rs) / 3600 :=
      Nat.div_le_div_right (minTs_le_maxTs _ (by simp))
    constructor
    · simp [df_hourly]
    · intro p hp
      simp only [df_hourly, List.mem_map] at hp
      obtain ⟨k, hk, rfl⟩ := hp
      rw [List.mem_range'_1] at hk
      refine ⟨Nat.mul_mod_left _ _, ?_, ?_⟩
      · omega
      · omega

theorem df_hourly_bucket_count_witness :
    exC4 ≠ [] ∧
      ((df_hourly exC4).length = maxTs exC4 / 3600 - minTs exC4 / 3600 + 1 ∧
        ∀ p ∈ df_hourly exC4, p.1 % 3600 = 0 ∧ minTs exC4 / 3600 * 3600 ≤ p.1 ∧
          p.1 ≤ maxTs exC4 / 3600 * 3600) :=
  ⟨by decide, df_hourly_bucket_count exC4 (by decide)⟩

/-- The all-missing aggregate row: every field carries the explicit
no-data marker (`none`), not zero. -/
def emptyAgg : HourlyAgg := ⟨none, none, none, none, none, none⟩

/-- C8: every wall-clock-hour bucket inside the table's range that contains
no reading appears in the hourly aggregate carrying the explicit missing
marker (`none`, pandas `NaN`) in every field - never the value zero. -/
theorem df_hourly_empty_bucket (t : SensorTable) (hne : t ≠ []) (k : Nat)
    (hlo : minTs t / 3600 ≤ k) (hhi : k ≤ maxTs t / 3600)
    (hgap : ∀ r ∈ t, ¬ (k * 3600 ≤ r.ts ∧ r.ts < k * 3600 + 3600)) :
    (k * 3600, emptyAgg) ∈ df_hourly t := by
  cases t with
  | nil => exact absurd rfl hne
  | cons r rs =>
    have hrows : bucketRows (r :: rs) (k * 3600) = [] := by
      rw [bucketRows, List.filter_eq_nil_iff]
      intro a ha
      have := hgap a ha
      simp only [Bool.and_eq_true, decide_eq_true_eq]
      tauto
    have hagg : bucketAgg (r :: rs) (k * 3600) = emptyAgg := by
      simp [bucketAgg, hrows, mean, emptyAgg]
    have hlohi : minTs (r :: rs) / 3600 ≤ maxTs (r :: rs) / 3600 :=
      Nat.div_le_div_right (minTs_le_maxTs _ (by simp))
    simp only [df_hourly, List.mem_map]
    refine ⟨k, ?_, by rw [hagg]⟩
    rw [List.mem_range'_1]
    omega

/-- Concrete input for the C8 witness: readings at 00:00 and 02:00, so the
01:00 bucket is empty. -/
def exC8 : SensorTable := [⟨0, 1, 1, 1, true, 1, 1⟩, ⟨7200, 2, 2, 2, false, 2, 2⟩]

theorem df_hourly_empty_bucket_witness :
    exC8 ≠ [] ∧ minTs exC8 / 3600 ≤ 1 ∧ 1 ≤ maxTs exC8 / 3600 ∧
      (∀ r ∈ exC8, ¬ (1 * 3600 ≤ r.ts ∧ r.ts < 1 * 3600 + 3600)) ∧
      (1 * 3600, emptyAgg) ∈ df_hourly exC8 :=
  ⟨by decide, by decide, by decide, by decide,
    df_hourly_empty_bucket exC8 (by decide) 1 (by decide) (by decide) (by decide)⟩

theorem sorted_getD_le (s : List ℚ) (hs : s.Sorted (· ≤ ·)) (i j : Nat)
    (hij : i ≤ j) (hj : j < s.length) : s.getD i 0 ≤ s.getD j 0 := by
  have hi : i < s.length := Nat.lt_of_le_of_lt hij hj
  rw [List.getD_eq_getElem?_getD, List.getElem?_eq_getElem hi,
    List.getD_eq_getElem?_getD, List.getElem?_eq_getElem hj, Option.getD_some,
    Option.getD_some]
  rcases Nat.eq_or_lt_of_le hij with rfl | hlt
  · exact le_refl _
  · exact List.pairwise_iff_getElem.mp hs i j hi hj hlt

theorem sorted_drop_gt (s : List ℚ) (hs : s.Sorted (· ≤ ·)) (c : ℚ) (j : Nat)
    (hj : j < s.length) (hcj : c < s.getD j 0) : ∀ x ∈ s.drop j, c < x := by
  intro x hx
  obtain ⟨m, hm, hxe⟩ := List.mem_iff_getElem.mp hx
  have hjm : j + m < s.length := by
    rw [List.length_drop] at hm
    omega
  have hge : s.getD j 0 ≤ s.getD (j + m) 0 :=
    sorted_getD_le s hs j (j + m) (by omega) hjm
  have hx2 : s.getD (j + m) 0 = x := by
    rw [List.getD_eq_getElem?_getD, List.getElem?_eq_getElem hjm, Option.getD_some]
    rw [← hxe, List.getElem_drop]
  linarith [hcj, hge, hx2.ge, hx2.le]

/-- C9: in any 100-row table whose vibration values are in `[0, 10]` except
a single row at `1000`, the 95th-percentile threshold the code computes is
defined and strictly below `1000`, and the High Vibration alert count is at
least 1. -/
theorem alert_high_vibration_outlier (t : SensorTable)
    (hlen : t.length = 100)
    (hval : ∀ r ∈ t, r.vibration_level = 1000 ∨
      (0 ≤ r.vibration_level ∧ r.vibration_level ≤ 10))
    (hone : (t.map (·.vibration_level)).count 1000 = 1) :
    ∃ c : ℚ, quantile (95 / 100) (t.map (·.vibration_level)) = some c ∧
      c < 1000 ∧ 1 ≤ (alert_conditions t).highVibration := by
  set l := t.map (·.vibration_level) with hl
  have hlenl : l.length = 100 := by rw [hl, List.length_map, hlen]
  have hlval : ∀ v ∈ l, v = 1000 ∨ (0 ≤ v ∧ v ≤ 10) := fun v hv => by
    obtain ⟨r, hr, rfl⟩ := List.mem_map.mp hv
    exact hval r hr
  have himp : ∀ v ∈ l, decide ((10 : ℚ) < v) = true → (v == 1000) = true := by
    intro v hv h10
    rcases hlval v hv with rfl | ⟨_, hle⟩
    · simp
    · rw [decide_eq_true_eq] at h10
      exact absurd h10 (not_lt.mpr hle)
  have hcount : l.countP (fun v => decide ((10 : ℚ) < v)) ≤ 1 := by
    calc l.countP (fun v => decide ((10 : ℚ) < v)) ≤ l.countP (· == 1000) :=
          List.countP_mono_left himp
      _ = 1 := by rw [← List.count_eq_countP]; exact hone
  set s := l.insertionSort (· ≤ ·) with hs
  have hslen : s.length = 100 := by rw [hs, List.length_insertionSort, hlenl]
  have hsorted : s.Sorted (· ≤ ·) := List.sorted_insertionSort _ _
  have hscount : s.countP (fun v => decide ((10 : ℚ) < v)) ≤ 1 := by
    rw [(List.perm_insertionSort _ _).countP_eq]
    exact hcount
  have h95 : s.getD 95 0 ≤ 10 := by
    by_contra hgt
    push_neg at hgt
    have hall : ∀ x ∈ s.drop 95, (10 : ℚ) < x :=
      sorted_drop_gt s hsorted 10 95 (by omega) hgt
    have h5 : (s.drop 95).countP (fun v => decide ((10 : ℚ) < v)) =
        (s.drop 95).length :=
      List.countP_eq_length.mpr (fun a ha => by simpa using hall a ha)
    have hlen5 : (s.drop 95).length = 5 := by rw [List.length_drop, hslen]
    have hsplit : s.countP (fun v => decide ((10 : ℚ) < v)) =
        (s.take 95).countP (fun v => decide ((10 : ℚ) < v)) +
          (s.drop 95).countP (fun v => decide ((10 : ℚ) < v)) := by
      conv_lhs => rw [show s = s.take 95 ++ s.drop 95 from
        (List.take_append_drop 95 s).symm, List.countP_append]
    omega
  have h94 : s.getD 94 0 ≤ 10 :=
    le_trans (sorted_getD_le s hsorted 94 95 (by omega) (by omega)) h95
  have hempty : l.isEmpty = false := by
    rw [List.isEmpty_eq_false]
    intro h'
    rw [h'] at hlenl
    simp at hlenl
  have hq : quantile (95 / 100) l =
      some (s.getD 94 0 + (1 / 20) * (s.getD 95 0 - s.getD 94 0)) := by
    simp only [quantile, hempty, Bool.false_eq_true, if_false, ← hs, hlenl]
    have hfloor : ⌊(95 / 100 : ℚ) * (((100 : ℕ) : ℚ) - 1)⌋ = 94 := by
      rw [Int.floor_eq_iff]
      norm_num
    rw [hfloor, show Int.toNat 94 = 94 from rfl, show (94 + 1) ⊓ 99 = 95 from rfl]
    norm_num
  have hc : s.getD 94 0 + (1 / 20) * (s.getD 95 0 - s.getD 94 0) < 1000 := by
    linarith
  refine ⟨_, hq, hc, ?_⟩
  show 1 ≤ countAbove l (quantile (95 / 100) l)
  rw [hq, countAbove]
  rw [List.one_le_countP_iff]
  refine ⟨1000, ?_, by rw [decide_eq_true_eq]; linarith [hc]⟩
  have : 0 < l.count 1000 := by omega
  exact List.count_pos_iff.mp this

/-- Concrete input for the C9 witness: 100 rows, vibration 5 everywhere
except row 0 at 1000. -/
def exC9 : SensorTable :=
  (List.range 100).map fun k => ⟨k, if k = 0 then 1000 else 5, 0, 0, true, 0, 0⟩

theorem applyRename1_ne_timestamp (c : String) :
    applyRename renameMap1 c ≠ "Timestamp" := by
  by_cases h : c = "Timestamp"
  · subst h
    decide
  · have hfind : renameMap1.find? (fun p => p.1 == c) = none := by
      rw [List.find?_eq_none]
      intro p hp
      simp only [renameMap1, List.mem_singleton] at hp
      subst hp
      simpa using fun hh => h hh.symm
    simp [applyRename, hfind, h]

theorem applyRename2_datetime (c : String) (h : c ≠ "Timestamp") :
    applyRename renameMap2 c = "DateTime" ↔ c = "DateTime" := by
  constructor
  · intro he
    cases hfind : renameMap2.find? (fun p => p.1 == c) with
    | none => simpa [applyRename, hfind] using he
    | some p =>
      have hp := List.find?_some hfind
      have hmem := List.mem_of_find?_eq_some hfind
      have hpc : p.1 = c := by simpa using hp
      have he2 : p.2 = "DateTime" := by simpa [applyRename, hfind] using he
      simp only [renameMap2, List.mem_cons, List.mem_singleton, List.not_mem_nil,
        or_false] at hmem
      rcases hmem with h1 | h1 | h1 | h1 | h1 | h1 | h1 <;> subst h1 <;> simp_all
  · intro he
    subst he
    decide

theorem idxOf?_map_congr (x : String) (g : String → String) (cols : List String)
    (h : ∀ c ∈ cols, g c = x ↔ c = x) :
    idxOf? x (cols.map g) = idxOf? x cols := by
  induction cols with
  | nil => rfl
  | cons c cs ih =>
    simp only [List.map_cons, idxOf?]
    by_cases hc : c = x
    · rw [if_pos ((h c (by simp)).mpr hc), if_pos hc]
    · rw [if_neg (fun hh => hc ((h c (by simp)).mp hh)), if_neg hc,
        ih (fun d hd => h d (by simp [hd]))]

theorem renameCols1_no_timestamp (cols : List String) :
    ∀ c ∈ renameCols renameMap1 cols, c ≠ "Timestamp" := by
  intro c hc
  obtain ⟨d, _, rfl⟩ := List.mem_map.mp hc
  exact applyRename1_ne_timestamp d

theorem idxOf?_rename2 (cols : List String)
    (hnt : ∀ c ∈ cols, c ≠ "Timestamp") :
    idxOf? "DateTime" (renameCols renameMap2 cols) = idxOf? "DateTime" cols :=
  idxOf?_map_congr _ _ _ (fun c hc => applyRename2_datetime c (hnt c hc))

/-- C6: `load_data` returns a table sorted ascending by the `DateTime`
column, so re-sorting it by timestamp (`sort_values('DateTime')` again) is
a no-op. -/
theorem load_data_sort_idempotent (input f : Frame)
    (h : load_data input = .ok f) : sortByDateTime f = f := by
  simp only [load_data] at h
  split at h
  · simp at h
  · split at h
    · simp at h
    · rename_i idx hc j hf
      injection h with h2
      subst h2
      set f1 := input.rename renameMap1 with hf1
      set rows2 := f1.rows.map
        (fun row => row.set idx (.dt ((parseCell (cellAt idx row)).getD 0)))
        with hrows2
      set r := fun a b => dtKey idx a ≤ dtKey idx b with hr
      haveI hTot : IsTotal (List Cell) r := ⟨fun a b => Nat.le_total _ _⟩
      haveI hTrans : IsTrans (List Cell) r := ⟨fun a b c hab hbc => Nat.le_trans hab hbc⟩
      have hc2 : Frame.colIdx { cols := f1.cols, rows := rows2 } "DateTime" = some idx := hc
      have hmid : sortByDateTime { cols := f1.cols, rows := rows2 } =
          { cols := f1.cols, rows := rows2.insertionSort r } := by
        rw [sortByDateTime, hc2]
      rw [hmid]
      have hcols : (Frame.rename { cols := f1.cols, rows := rows2.insertionSort r }
          renameMap2).cols = renameCols renameMap2 f1.cols := rfl
      have hcfinal : Frame.colIdx (Frame.rename
          { cols := f1.cols, rows := rows2.insertionSort r } renameMap2) "DateTime" =
          some idx := by
        show idxOf? "DateTime" (renameCols renameMap2 f1.cols) = some idx
        rw [idxOf?_rename2 f1.cols (renameCols1_no_timestamp input.cols)]
        exact hc
      rw [sortByDateTime, hcfinal]
      have hsorted : (rows2.insertionSort r).Sorted r := List.sorted_insertionSort r _
      show Frame.mk _ _ = _
      rw [Frame.rename]
      simp only [hsorted.insertionSort_eq]

/-- Concrete input for the C6 witness: two rows given out of order. -/
def exC6 : Frame :=
  { cols := ["Timestamp", "Vibration Level (mm/s)"],
    rows := [[.str "2024-01-01 10:00:00", .num 2],
      [.str "2024-01-01 09:00:00", .num 1]] }

/-- The table `load_data` produces for `exC6`: renamed columns, parsed
timestamps, rows sorted ascending. -/
def exC6loaded : Frame :=
  { cols := ["DateTime", "Vibration_Level"],
    rows := [[.dt 65055776400, .num 1], [.dt 65055780000, .num 2]] }

theorem load_data_sort_idempotent_witness :
    load_data exC6 = .ok exC6loaded ∧ sortByDateTime exC6loaded = exC6loaded :=
  ⟨rfl, load_data_sort_idempotent exC6 exC6loaded rfl⟩

theorem firstIdx_eq_none_iff (p : List Cell → Bool) (l : List (List Cell)) :
    firstIdx p l = none ↔ ∀ r ∈ l, ¬ p r := by
  induction l with
  | nil => simp [firstIdx]
  | cons r rs ih =>
    by_cases hp : p r
    · simp [firstIdx, hp]
    · simp [firstIdx, hp, ih, Option.map_eq_none']

theorem firstIdx_some_bad (p : List Cell → Bool) (l : List (List Cell)) (j : Nat)
    (h : firstIdx p l = some j) : j < l.length ∧ p (l.getD j []) = true := by
  induction l generalizing j with
  | nil => simp [firstIdx] at h
  | cons r rs ih =>
    by_cases hp : p r
    · simp only [firstIdx, hp, if_true, Option.some.injEq] at h
      subst h
      simpa using hp
    · simp only [firstIdx, hp, if_false, Option.map_eq_some', Bool.false_eq_true] at h
      obtain ⟨j', hj', rfl⟩ := h
      have := ih _ hj'
      constructor
      · simp only [List.length_cons]
        omega
      · simpa using this.2

/-- C7: when the (renamed) timestamp column exists and some row's
timestamp fails to parse, `load_data` rejects the whole input with a
`ParseError` carrying the position of an unparseable row - no table is
produced and no row is silently dropped. -/
theorem load_data_rejects_bad_timestamp (input : Frame) (idx : Nat)
    (hidx : (input.rename renameMap1).colIdx "DateTime" = some idx)
    (hbad : ∃ r ∈ input.rows, badTimestamp idx r = true) :
    ∃ j, load_data input = .error (.parseError j) ∧ j < input.rows.length ∧
      badTimestamp idx (input.rows.getD j []) = true := by
  have hrows : (input.rename renameMap1).rows = input.rows := rfl
  cases hf : firstIdx (badTimestamp idx) (input.rename renameMap1).rows with
  | none =>
    rw [firstIdx_eq_none_iff] at hf
    obtain ⟨r, hr, hb⟩ := hbad
    exact absurd hb (by simpa using hf r (by rwa [hrows]))
  | some j =>
    obtain ⟨hjlen, hjbad⟩ := firstIdx_some_bad _ _ _ hf
    refine ⟨j, ?_, by rwa [hrows] at hjlen, by rwa [hrows] at hjbad⟩
    simp only [load_data, hidx, hf]

/-- Concrete input for the C7 witness: the second row's timestamp is the
unparseable string `not-a-date`. -/
def exC7 : Frame :=
  { cols := ["Timestamp"],
    rows := [[.str "2024-01-01 10:00:00"], [.str "not-a-date"]] }

theorem load_data_rejects_bad_timestamp_witness :
    (exC7.rename renameMap1).colIdx "DateTime" = some 0 ∧
      (∃ r ∈ exC7.rows, badTimestamp 0 r = true) ∧
      ∃ j, load_data exC7 = .error (.parseError j) ∧ j < exC7.rows.length ∧
        badTimestamp 0 (exC7.rows.getD j []) = true :=
  ⟨by decide, by decide,
    load_data_rejects_bad_timestamp exC7 0 (by decide) (by decide)⟩

/-- Concrete input for C3: a header carrying every source column except
`Vibration Level (mm/s)`, with one well-formed row. -/
def exC3 : Frame :=
  { cols := ["Timestamp", "Machine Speed (RPM)", "Production Quality Score",
      "Optimal Conditions", "Energy Consumption (kWh)", "Temperature (°C)"],
    rows := [[.str "2024-01-01 10:00:00", .num 1200, .num 95, .flag true,
      .num 3, .num 21]] }

/-- C3: `load_data` does NOT fail when a required non-timestamp column is
absent: with the vibration column missing it silently returns a table.
There is no `SchemaError` naming the missing source column anywhere in the
code - the defect only surfaces later as a `KeyError` on the internal name
when a panel accesses the column. -/
theorem load_data_missing_column_succeeds : ∃ f, load_data exC3 = .ok f :=
  ⟨_, rfl⟩

theorem alert_high_vibration_outlier_witness :
    exC9.length = 100 ∧
      (∀ r ∈ exC9, r.vibration_level = 1000 ∨
        (0 ≤ r.vibration_level ∧ r.vibration_level ≤ 10)) ∧
      (exC9.map (·.vibration_level)).count 1000 = 1 ∧
      ∃ c : ℚ, quantile (95 / 100) (exC9.map (·.vibration_level)) = some c ∧
        c < 1000 ∧ 1 ≤ (alert_conditions exC9).highVibration :=
  ⟨by decide, by decide, by decide,
    alert_high_vibration_outlier exC9 (by decide) (by decide) (by decide)⟩

end Dashboard
